import Mathlib

/-!
# Verification of the dank-mcp measurement / fetch-and-cache core

Shallow embedding of the Go sources of AgentDank/dank-mcp:

* `measure.go` (the `Measure` value type, its string classifiers, parsing,
  validity predicate, and JSON marshalling),
* `data/us/ct/ct.go` (`Brand`, `FetchBrands` pagination loop with its
  cache-file lifecycle, `CleanBrands`, `IsBrandErroneous`),
* `data/cache.go` (`CheckCacheFile`).

Go `float64` values are modelled by `GoFloat`, an inductive with explicit
`nan` / `negInf` / `posInf` constructors and exact rationals for finite
values; the comparison operators mirror IEEE semantics (every comparison
involving NaN is false).  Go strings are modelled by Lean `String`
(the classifiers only inspect ASCII content, where the byte view and the
character view agree).  Fallible Go functions return `Except`; a Go
runtime panic (out-of-range index) is modelled by an outer `Option`
returning `none`.
-/

namespace DankMcp

/-- Model of a Go `float64`: NaN, the two infinities, and exact finite
values (finite doubles are a subset of ℚ; none of the verified code
depends on rounding). -/
inductive GoFloat where
  | nan : GoFloat
  | negInf : GoFloat
  | posInf : GoFloat
  | finite (q : ℚ) : GoFloat
deriving DecidableEq

/-- Go `==` on float64: false whenever either side is NaN. -/
def goEq : GoFloat → GoFloat → Bool
  | .negInf, .negInf => true
  | .posInf, .posInf => true
  | .finite a, .finite b => a == b
  | _, _ => false

/-- Go `<` on float64: false whenever either side is NaN. -/
def goLt : GoFloat → GoFloat → Bool
  | .nan, _ => false
  | _, .nan => false
  | .negInf, .negInf => false
  | .negInf, _ => true
  | _, .negInf => false
  | .posInf, _ => false
  | .finite _, .posInf => true
  | .finite a, .finite b => a < b

/-- Go `<=` on float64 (equivalent to `< or ==`; false on NaN). -/
def goLe (a b : GoFloat) : Bool := goLt a b || goEq a b

---------------------------------------------------------------------------
-- Go string helpers (strings.HasPrefix / HasSuffix / Contains / Count ...)

/-- `strings.HasPrefix`. -/
def strHasStart (s p : String) : Bool := p.data.isPrefixOf s.data

/-- `strings.HasSuffix`. -/
def strHasEnd (s p : String) : Bool := p.data.isSuffixOf s.data

/-- Substring containment over char lists (`strings.Contains`). -/
def listContainsSub : List Char → List Char → Bool
  | l, pat =>
    if pat.isPrefixOf l then true
    else match l with
      | [] => false
      | _ :: t => listContainsSub t pat

/-- `strings.Contains`. -/
def strContainsSub (s pat : String) : Bool := listContainsSub s.data pat.data

/-- `strings.Count` for a single-character pattern. -/
def strCountChar (s : String) (c : Char) : Nat := s.data.count c

/-- `strings.ContainsAny(s, chars)`. -/
def strContainsAny (s : String) (chars : List Char) : Bool :=
  s.data.any (fun c => chars.contains c)

/-- `strings.TrimPrefix`. -/
def strTrimStart (s p : String) : String :=
  if strHasStart s p then String.mk (s.data.drop p.data.length) else s

/-- `strings.TrimSuffix`. -/
def strTrimEnd (s p : String) : String :=
  if strHasEnd s p then String.mk (s.data.take (s.data.length - p.data.length)) else s

---------------------------------------------------------------------------
-- measure.go : string classifiers

/-- `IsTraceMeasurement`: `str == "TRC" || strings.Contains(str, "LOQ") ||
strings.HasPrefix(str, "<")`. -/
def IsTraceMeasurement (str : String) : Bool :=
  str == "TRC" || strContainsSub str "LOQ" || strHasStart str "<"

/-- `IsEmptyMeasurement`: `str == "" || str == "." || str == "-" ||
strings.HasPrefix(str, "--")`. -/
def IsEmptyMeasurement (str : String) : Bool :=
  str == "" || str == "." || str == "-" || strHasStart str "--"

/-- `isLetter(c)`: true for a-z and A-Z. -/
def isLetter (c : Char) : Bool :=
  (decide (Char.ofNat 97 ≤ c) && decide (c ≤ Char.ofNat 122)) ||
  (decide (Char.ofNat 65 ≤ c) && decide (c ≤ Char.ofNat 90))

/-- The punctuation blacklist of `IsErrorMeasurement`:
comma, backtick, slash, parentheses (`",`/()"` in the source). -/
def errorPunctuation : List Char :=
  [Char.ofNat 44, Char.ofNat 96, Char.ofNat 47, Char.ofNat 40, Char.ofNat 41]

/-- `IsErrorMeasurement`.  The Go function indexes `str[0]` after the first
two tests; on an empty string that access panics, which the model reports
as `none`. -/
def IsErrorMeasurementO (str : String) : Option Bool :=
  if strCountChar str (Char.ofNat 46) > 1 then some true
  else if strContainsAny str errorPunctuation then some true
  else match str.data with
    | [] => none
    | c :: _ =>
      if isLetter c then some true
      else some (str == "0<0.10" || strHasStart str "terpinolene: 1.22" ||
                 strHasStart str "a-Ocimene: 1.08")

---------------------------------------------------------------------------
-- measure.go : sentinels and the Measure type

/-- `measureEmptySentinel = 0.0`. -/
def measureEmptySentinel : GoFloat := .finite 0

/-- `measureZeroSentinel = math.NaN()`. -/
def measureZeroSentinel : GoFloat := .nan

/-- `measureTraceSentinel = math.Inf(-1)`. -/
def measureTraceSentinel : GoFloat := .negInf

/-- `measureSentinelize(amount)`: `0 → NaN`, `< 0 → -Inf`, else unchanged. -/
def measureSentinelize (amount : GoFloat) : GoFloat :=
  if goEq amount (.finite 0) then measureZeroSentinel
  else if goLt amount (.finite 0) then measureTraceSentinel
  else amount

/-- The `Measure` struct: a single float64 field `amount`. -/
structure Measure where
  amount : GoFloat
deriving DecidableEq

/-- `NewMeasure(amount)`. -/
def NewMeasure (amount : GoFloat) : Measure := ⟨measureSentinelize amount⟩

/-- `NewEmptyMeasure()`. -/
def NewEmptyMeasure : Measure := ⟨measureEmptySentinel⟩

/-- `NewTraceMeasure()`. -/
def NewTraceMeasure : Measure := ⟨measureTraceSentinel⟩

namespace Measure

/-- `IsEmpty`: `m.amount == measureEmptySentinel` (Go float `==`). -/
def IsEmpty (m : Measure) : Bool := goEq m.amount measureEmptySentinel

/-- `IsTrace`: `math.IsInf(m.amount, -1)`. -/
def IsTrace (m : Measure) : Bool := m.amount == GoFloat.negInf

/-- `IsZero`: `math.IsNaN(m.amount)`. -/
def IsZero (m : Measure) : Bool := m.amount == GoFloat.nan

/-- `IsEqual`: `m.amount == other.amount` (Go float `==`, so NaN ≠ NaN). -/
def IsEqual (m other : Measure) : Bool := goEq m.amount other.amount

/-- `IsValidPercent`: sentinel states are valid; otherwise
`m.amount >= 0 && m.amount <= 100` (the rational 100 is written `mkRat
100 1` so the kernel can evaluate the comparison). -/
def IsValidPercent (m : Measure) : Bool :=
  if m.IsZero || m.IsEmpty || m.IsTrace then true
  else goLe (.finite 0) m.amount && goLe m.amount (.finite (mkRat 100 1))

end Measure

---------------------------------------------------------------------------
-- Decimal parsing (strconv.ParseFloat) and formatting (fmt "%f")

/-- Digit characters 0-9. -/
def isDigitChar (c : Char) : Bool := c.isDigit

/-- Value of a list of decimal digit characters. -/
def digitsToNat (l : List Char) : Nat :=
  l.foldl (fun a c => 10 * a + (c.toNat - 48)) 0

/-- Consume an optional leading sign; returns (isNegative, rest).
A leading `+` is accepted (as `strconv.ParseFloat` does). -/
def parseSign : List Char → Bool × List Char
  | c :: t =>
    if c == Char.ofNat 45 then (true, t)
    else if c == Char.ofNat 43 then (false, t)
    else (false, c :: t)
  | [] => (false, [])

/-- Parse an exponent suffix (after the `e`/`E`): optional sign then one
or more digits; returns the signed exponent and the remaining input. -/
def parseExpDigits (l : List Char) : Option (Int × List Char) :=
  let (neg, l1) := parseSign l
  let ds := l1.takeWhile isDigitChar
  if ds.isEmpty then none
  else
    let e : Int := digitsToNat ds
    some (if neg then -e else e, l1.dropWhile isDigitChar)

/-- Scale a rational by `10 ^ e` for a signed exponent `e` (expressed with
`mkRat` over the numerator/denominator so the kernel can evaluate it). -/
def applyExp10 (q : ℚ) (e : Int) : ℚ :=
  if e < 0 then mkRat q.num (q.den * 10 ^ e.natAbs)
  else mkRat (q.num * (10 : Int) ^ e.toNat) q.den

/-- Negate when the sign flag is set. -/
def applySign (neg : Bool) (q : ℚ) : ℚ := if neg then -q else q

/-- Model of `strconv.ParseFloat` on its decimal forms:
`[+|-] digits [. digits] [e|E [+|-] digits]`, needing at least one digit in
the mantissa and consuming the whole input.  (`ParseFloat` additionally
accepts "inf"/"nan" spellings, hex floats and digit-separating
underscores; none of those shapes are relevant to the verified claims.)
The result is the exact rational value. -/
def parseGoFloat (s : String) : Option ℚ :=
  let (neg, l1) := parseSign s.data
  let ip := l1.takeWhile isDigitChar
  let l2 := l1.dropWhile isDigitChar
  let (fp, l3) :=
    match l2 with
    | c :: t =>
      if c == Char.ofNat 46 then (t.takeWhile isDigitChar, t.dropWhile isDigitChar)
      else (([] : List Char), l2)
    | [] => (([] : List Char), ([] : List Char))
  if ip.isEmpty && fp.isEmpty then none
  else
    let mant : ℚ := mkRat (digitsToNat ip * 10 ^ fp.length + digitsToNat fp) (10 ^ fp.length)
    match l3 with
    | [] => some (applySign neg mant)
    | c :: t =>
      if c == Char.ofNat 101 || c == Char.ofNat 69 then
        match parseExpDigits t with
        | some (e, []) => some (applySign neg (applyExp10 mant e))
        | _ => none
      else none

/-- Pad a fraction value to six digits with leading zeros. -/
def padSixDigits (n : Nat) : String :=
  let s := Nat.repr n
  String.mk (List.replicate (6 - s.length) (Char.ofNat 48)) ++ s

/-- `fmt.Sprintf("%f", v)` for a nonnegative finite value: six fractional
digits, rounding to nearest (the scaled value `q * 10^6 + 1/2` is floored
by exact integer arithmetic on the rational's numerator and denominator). -/
def formatFixed6Pos (q : ℚ) : String :=
  let scaled : Int := (q.num * 2000000 + (q.den : Int)) / (2 * (q.den : Int))
  let n := scaled.toNat
  Nat.repr (n / 1000000) ++ "." ++ padSixDigits (n % 1000000)

/-- `fmt.Sprintf("%f", v)` for a finite value. -/
def formatFixed6 (q : ℚ) : String :=
  if q < 0 then "-" ++ formatFixed6Pos (-q) else formatFixed6Pos q

/-- `fmt.Sprintf("%f", v)` over the whole float64 domain. -/
def goFormatFloat : GoFloat → String
  | .nan => "NaN"
  | .posInf => "+Inf"
  | .negInf => "-Inf"
  | .finite q => formatFixed6 q

---------------------------------------------------------------------------
-- measure.go : FromString / MarshalJSON / UnmarshalJSON

/-- `Measure.FromString`.  Classification order as in the source: the
empty-pattern test, then the error-pattern test (whose `str[0]` access is
the reason for the outer `Option`: `none` models the Go panic), then the
trace-pattern test, then comma / `>` / `%` trimming and `ParseFloat`.
A parse failure is returned as `.error` (the measure is left unchanged in
Go); every classification success is `.ok`. -/
def Measure.FromString (str : String) : Option (Except String Measure) :=
  if IsEmptyMeasurement str then some (.ok ⟨measureEmptySentinel⟩)
  else
    match IsErrorMeasurementO str with
    | none => none
    | some true => some (.ok ⟨measureEmptySentinel⟩)
    | some false =>
      if IsTraceMeasurement str then some (.ok ⟨measureTraceSentinel⟩)
      else
        let s1 := strTrimStart str ","
        let s2 := strTrimStart s1 ">"
        let s3 := strTrimEnd s2 "%"
        match parseGoFloat s3 with
        | none => some (.error "strconv.ParseFloat: invalid syntax")
        | some v => some (.ok ⟨measureSentinelize (.finite v)⟩)

/-- `Measure.MarshalJSON`: Empty → zero bytes, Zero → `0`,
Trace → `<0.01` (verbatim, unquoted), Numeric → `fmt.Sprintf("%f", amount)`. -/
def Measure.MarshalJSON (m : Measure) : String :=
  if m.IsEmpty then ""
  else if m.IsZero then "0"
  else if m.IsTrace then "<0.01"
  else goFormatFloat m.amount

/-- `json.Unmarshal(b, &str)` for a string target, on the escape-free
subset: the payload must be quote-delimited with no interior quote or
backslash.  (Escaped payloads never arise in the verified claims.) -/
def jsonParseString (s : String) : Option String :=
  match s.data with
  | [] => none
  | [_] => none
  | c :: rest =>
    if c == Char.ofNat 34 && rest.getLast? == some (Char.ofNat 34) &&
       rest.dropLast.all (fun ch => !(ch == Char.ofNat 34 || ch == Char.ofNat 92)) then
      some (String.mk rest.dropLast)
    else none

/-- Exponent tail of the JSON number grammar. -/
def jsonNumberTail (neg : Bool) (mant : ℚ) : List Char → Option ℚ
  | [] => some (applySign neg mant)
  | c :: t =>
    if c == Char.ofNat 101 || c == Char.ofNat 69 then
      match parseExpDigits t with
      | some (e, []) => some (applySign neg (applyExp10 mant e))
      | _ => none
    else none

/-- `json.Unmarshal(b, &val)` for a float64 target: the JSON number
grammar `-? int frac? exp?` with no leading zeros and at least one digit
after a decimal point, evaluated exactly. -/
def jsonParseNumber (s : String) : Option ℚ :=
  let (neg, l1) :=
    match s.data with
    | c :: t => if c == Char.ofNat 45 then (true, t) else (false, c :: t)
    | [] => (false, [])
  let ip := l1.takeWhile isDigitChar
  let l2 := l1.dropWhile isDigitChar
  if ip.isEmpty then none
  else if 1 < ip.length && ip.head? == some (Char.ofNat 48) then none
  else
    match l2 with
    | c :: t =>
      if c == Char.ofNat 46 then
        let fp := t.takeWhile isDigitChar
        if fp.isEmpty then none
        else
          jsonNumberTail neg
            (mkRat (digitsToNat ip * 10 ^ fp.length + digitsToNat fp) (10 ^ fp.length))
            (t.dropWhile isDigitChar)
      else jsonNumberTail neg (mkRat (digitsToNat ip) 1) l2
    | [] => some (applySign neg (mkRat (digitsToNat ip) 1))

/-- `Measure.UnmarshalJSON`: `null` → Empty; else try a JSON string and
route it through `FromString`; else try a JSON number and sentinelize it;
else report an unmarshalling error. -/
def Measure.UnmarshalJSON (b : String) : Option (Except String Measure) :=
  if b == "null" then some (.ok ⟨measureEmptySentinel⟩)
  else
    match jsonParseString b with
    | some str => Measure.FromString str
    | none =>
      match jsonParseNumber b with
      | some val => some (.ok ⟨measureSentinelize (.finite val)⟩)
      | none => some (.error "failed to unmarshal measure")

---------------------------------------------------------------------------
-- ct.go : the Brand record

/-- The `Image` struct of ct.go. -/
structure Image where
  URL : String
  Description : String
deriving DecidableEq

/-- The raw `Brand` record of ct.go.  `ApprovalDate` (an `iso8601.Time`)
is modelled as an integer timestamp; no verified claim inspects it. -/
structure Brand where
  BrandName : String
  DosageForm : String
  BrandingEntity : String
  ProductImage : Image
  LabelImage : Image
  LabAnalysis : Image
  ApprovalDate : Int
  RegistrationNumber : String
  TetrahydrocannabinolThc : Measure
  TetrahydrocannabinolAcidThca : Measure
  CannabidiolsCbd : Measure
  CannabidiolAcidCbda : Measure
  APinene : Measure
  BMyrcene : Measure
  BCaryophyllene : Measure
  BPinene : Measure
  Limonene : Measure
  Ocimene : Measure
  LinaloolLin : Measure
  HumuleneHum : Measure
  Cbg : Measure
  CbgA : Measure
  CannabavarinCbdv : Measure
  CannabichromeneCbc : Measure
  CannbinolCbn : Measure
  TetrahydrocannabivarinThcv : Measure
  ABisabolol : Measure
  APhellandrene : Measure
  ATerpinene : Measure
  BEudesmol : Measure
  BTerpinene : Measure
  Fenchone : Measure
  Pulegol : Measure
  Borneol : Measure
  Isopulegol : Measure
  Carene : Measure
  Camphene : Measure
  Camphor : Measure
  CaryophylleneOxide : Measure
  Cedrol : Measure
  Eucalyptol : Measure
  Geraniol : Measure
  Guaiol : Measure
  GeranylAcetate : Measure
  Isoborneol : Measure
  Menthol : Measure
  LFenchone : Measure
  Nerol : Measure
  Sabinene : Measure
  Terpineol : Measure
  Terpinolene : Measure
  TransBFarnesene : Measure
  Valencene : Measure
  ACedrene : Measure
  AFarnesene : Measure
  BFarnesene : Measure
  CisNerolidol : Measure
  Fenchol : Measure
  TransNerolidol : Measure
  Market : String
  Chemotype : String
  ProcessingTechnique : String
  SolventsUsed : String
  NationalDrugCode : String

/-- The measurement fields of a `Brand`, in the order `IsBrandErroneous`
tests them (which is also their declaration order in the struct). -/
def brandMeasures (b : Brand) : List Measure :=
  [b.TetrahydrocannabinolThc, b.TetrahydrocannabinolAcidThca, b.CannabidiolsCbd,
   b.CannabidiolAcidCbda, b.APinene, b.BMyrcene, b.BCaryophyllene, b.BPinene,
   b.Limonene, b.Ocimene, b.LinaloolLin, b.HumuleneHum, b.Cbg, b.CbgA,
   b.CannabavarinCbdv, b.CannabichromeneCbc, b.CannbinolCbn,
   b.TetrahydrocannabivarinThcv, b.ABisabolol, b.APhellandrene, b.ATerpinene,
   b.BEudesmol, b.BTerpinene, b.Fenchone, b.Pulegol, b.Borneol, b.Isopulegol,
   b.Carene, b.Camphene, b.Camphor, b.CaryophylleneOxide, b.Cedrol,
   b.Eucalyptol, b.Geraniol, b.Guaiol, b.GeranylAcetate, b.Isoborneol,
   b.Menthol, b.LFenchone, b.Nerol, b.Sabinene, b.Terpineol, b.Terpinolene,
   b.TransBFarnesene, b.Valencene, b.ACedrene, b.AFarnesene, b.BFarnesene,
   b.CisNerolidol, b.Fenchol, b.TransNerolidol]

/-- `IsBrandErroneous`: an empty `BrandName`, or any of the 51 measurement
fields failing `IsValidPercent`, makes the brand erroneous. -/
def IsBrandErroneous (b : Brand) : Bool :=
  if b.BrandName == "" then true
  else if
      !b.TetrahydrocannabinolThc.IsValidPercent || !b.TetrahydrocannabinolAcidThca.IsValidPercent ||
      !b.CannabidiolsCbd.IsValidPercent || !b.CannabidiolAcidCbda.IsValidPercent ||
      !b.APinene.IsValidPercent || !b.BMyrcene.IsValidPercent ||
      !b.BCaryophyllene.IsValidPercent || !b.BPinene.IsValidPercent ||
      !b.Limonene.IsValidPercent || !b.Ocimene.IsValidPercent ||
      !b.LinaloolLin.IsValidPercent || !b.HumuleneHum.IsValidPercent ||
      !b.Cbg.IsValidPercent || !b.CbgA.IsValidPercent ||
      !b.CannabavarinCbdv.IsValidPercent || !b.CannabichromeneCbc.IsValidPercent ||
      !b.CannbinolCbn.IsValidPercent || !b.TetrahydrocannabivarinThcv.IsValidPercent ||
      !b.ABisabolol.IsValidPercent || !b.APhellandrene.IsValidPercent ||
      !b.ATerpinene.IsValidPercent || !b.BEudesmol.IsValidPercent ||
      !b.BTerpinene.IsValidPercent || !b.Fenchone.IsValidPercent ||
      !b.Pulegol.IsValidPercent || !b.Borneol.IsValidPercent ||
      !b.Isopulegol.IsValidPercent || !b.Carene.IsValidPercent ||
      !b.Camphene.IsValidPercent || !b.Camphor.IsValidPercent ||
      !b.CaryophylleneOxide.IsValidPercent || !b.Cedrol.IsValidPercent ||
      !b.Eucalyptol.IsValidPercent || !b.Geraniol.IsValidPercent ||
      !b.Guaiol.IsValidPercent || !b.GeranylAcetate.IsValidPercent ||
      !b.Isoborneol.IsValidPercent || !b.Menthol.IsValidPercent ||
      !b.LFenchone.IsValidPercent || !b.Nerol.IsValidPercent ||
      !b.Sabinene.IsValidPercent || !b.Terpineol.IsValidPercent ||
      !b.Terpinolene.IsValidPercent || !b.TransBFarnesene.IsValidPercent ||
      !b.Valencene.IsValidPercent || !b.ACedrene.IsValidPercent ||
      !b.AFarnesene.IsValidPercent || !b.BFarnesene.IsValidPercent ||
      !b.CisNerolidol.IsValidPercent || !b.Fenchol.IsValidPercent ||
      !b.TransNerolidol.IsValidPercent then true
  else false

/-- `CleanBrands`: `slices.DeleteFunc(bs, IsBrandErroneous)` — an in-place
stable filter keeping exactly the non-erroneous brands. -/
def CleanBrands (bs : List Brand) : List Brand :=
  bs.filter (fun b => !IsBrandErroneous b)

/-- The invalidity predicate as claim C4 words it ("identity field (the
registration/lookup key)"): written from the claim, for comparison with
the source's `IsBrandErroneous`, which tests `BrandName` instead. -/
def brandInvalidPerClaim (b : Brand) : Bool :=
  b.RegistrationNumber == "" || (brandMeasures b).any (fun m => !m.IsValidPercent)

/-- A brand whose every field is blank: all measures Empty, all strings
empty. -/
def defaultBrand : Brand where
  BrandName := ""
  DosageForm := ""
  BrandingEntity := ""
  ProductImage := ⟨"", ""⟩
  LabelImage := ⟨"", ""⟩
  LabAnalysis := ⟨"", ""⟩
  ApprovalDate := 0
  RegistrationNumber := ""
  TetrahydrocannabinolThc := NewEmptyMeasure
  TetrahydrocannabinolAcidThca := NewEmptyMeasure
  CannabidiolsCbd := NewEmptyMeasure
  CannabidiolAcidCbda := NewEmptyMeasure
  APinene := NewEmptyMeasure
  BMyrcene := NewEmptyMeasure
  BCaryophyllene := NewEmptyMeasure
  BPinene := NewEmptyMeasure
  Limonene := NewEmptyMeasure
  Ocimene := NewEmptyMeasure
  LinaloolLin := NewEmptyMeasure
  HumuleneHum := NewEmptyMeasure
  Cbg := NewEmptyMeasure
  CbgA := NewEmptyMeasure
  CannabavarinCbdv := NewEmptyMeasure
  CannabichromeneCbc := NewEmptyMeasure
  CannbinolCbn := NewEmptyMeasure
  TetrahydrocannabivarinThcv := NewEmptyMeasure
  ABisabolol := NewEmptyMeasure
  APhellandrene := NewEmptyMeasure
  ATerpinene := NewEmptyMeasure
  BEudesmol := NewEmptyMeasure
  BTerpinene := NewEmptyMeasure
  Fenchone := NewEmptyMeasure
  Pulegol := NewEmptyMeasure
  Borneol := NewEmptyMeasure
  Isopulegol := NewEmptyMeasure
  Carene := NewEmptyMeasure
  Camphene := NewEmptyMeasure
  Camphor := NewEmptyMeasure
  CaryophylleneOxide := NewEmptyMeasure
  Cedrol := NewEmptyMeasure
  Eucalyptol := NewEmptyMeasure
  Geraniol := NewEmptyMeasure
  Guaiol := NewEmptyMeasure
  GeranylAcetate := NewEmptyMeasure
  Isoborneol := NewEmptyMeasure
  Menthol := NewEmptyMeasure
  LFenchone := NewEmptyMeasure
  Nerol := NewEmptyMeasure
  Sabinene := NewEmptyMeasure
  Terpineol := NewEmptyMeasure
  Terpinolene := NewEmptyMeasure
  TransBFarnesene := NewEmptyMeasure
  Valencene := NewEmptyMeasure
  ACedrene := NewEmptyMeasure
  AFarnesene := NewEmptyMeasure
  BFarnesene := NewEmptyMeasure
  CisNerolidol := NewEmptyMeasure
  Fenchol := NewEmptyMeasure
  TransNerolidol := NewEmptyMeasure
  Market := ""
  Chemotype := ""
  ProcessingTechnique := ""
  SolventsUsed := ""
  NationalDrugCode := ""

/-- The concrete brand of the C4 counterexample: it has a name, so the
code retains it, but its registration/lookup key is empty, so the claim
as stated would drop it. -/
def namedKeylessBrand : Brand :=
  { defaultBrand with BrandName := "X", RegistrationNumber := "" }

---------------------------------------------------------------------------
-- cache.go : CheckCacheFile

/-- What `os.Stat`/`os.ReadFile` see of the named cache artifact: its
modification time (`time.Time` as an integer instant) and its contents. -/
structure CacheFileInfo where
  modTime : Int
  contents : String

/-- `CheckCacheFile(filename, maxAge)`, over the state of the filesystem
(`file = none` when the artifact does not exist) and the current clock
`now`.  `maxAge` is a `time.Duration` on the same integer scale.  The age
test is the source's `maxAge != 0 && time.Now().After(stat.ModTime().Add(maxAge))`. -/
def CheckCacheFile (file : Option CacheFileInfo) (now maxAge : Int) :
    Except String String :=
  match file with
  | none => .error "cache file not found"
  | some fi =>
    if maxAge != 0 && decide (fi.modTime + maxAge < now) then
      .error "cache file is too old"
    else .ok fi.contents

---------------------------------------------------------------------------
-- ct.go : FetchBrands page loop with its cache-file lifecycle

/-- `batchLimit = 5000` of `FetchBrands`. -/
def batchLimit : Nat := 5000

/-- Outcome of one page request, as `FetchBrands` distinguishes them:
a transport failure (`client.Do` or body-read error), a non-OK HTTP
status (with its body), a body that fails to unmarshal as `[]Brand`, or a
decoded batch. -/
inductive PageResp where
  | transportErr : PageResp
  | httpErr (status : Nat) (body : String) : PageResp
  | decodeErr : PageResp
  | ok (batch : List Brand) : PageResp

/-- The session-fatal errors of `FetchBrands`. -/
inductive FetchErr where
  | network : FetchErr
  | http (status : Nat) (body : String) : FetchErr
  | decode : FetchErr
deriving DecidableEq

/-- The cache write handle at the end of a `FetchBrands` run: the batches
streamed to it (one element per page written), and whether the deferred
cleanup kept the file (`deleteCacheFile = false`) or deleted it. -/
structure CacheWrite where
  batches : List (List Brand)
  kept : Bool

/-- The `FetchBrands` page loop (the cache-miss path, after
`MakeCacheFile` succeeded), against an arbitrary remote server `srv`
mapping an `$offset` to that page's response.  Fuel bounds the number of
iterations we unroll (`none` = the loop is still running after `fuel`
requests); `offset`, `acc` (the `brands` accumulator), `ws` (batches
streamed to the cache file) and `reqs` (requests issued so far) are the
loop state.  Any page failure returns the error, and the deferred cleanup
deletes the cache file (`kept = false`); a batch shorter than
`batchLimit` ends the loop, sets `deleteCacheFile = false` and keeps the
file. -/
def fetchPages (srv : Nat → PageResp) :
    Nat → Nat → List Brand → List (List Brand) → Nat →
    Option (Except FetchErr (List Brand) × CacheWrite × Nat)
  | 0, _, _, _, _ => none
  | fuel + 1, offset, acc, ws, reqs =>
    match srv offset with
    | .transportErr => some (.error .network, ⟨ws, false⟩, reqs + 1)
    | .httpErr st body => some (.error (.http st body), ⟨ws, false⟩, reqs + 1)
    | .decodeErr => some (.error .decode, ⟨ws, false⟩, reqs + 1)
    | .ok batch =>
      if batch.length < batchLimit then
        some (.ok (acc ++ batch), ⟨ws ++ [batch], true⟩, reqs + 1)
      else
        fetchPages srv fuel (offset + batchLimit) (acc ++ batch) (ws ++ [batch]) (reqs + 1)

/-- A faithful remote collection: the server holds `records` (sorted by
the stable sort key) and answers an `$offset`/`$limit` request with the
corresponding slice. -/
def honestServer (records : List Brand) (offset : Nat) : PageResp :=
  .ok ((records.drop offset).take batchLimit)

/-- The server of the crash-safety scenario (spec §8): the first page is
full, the second request fails with an HTTP error. -/
def secondPageFailServer (offset : Nat) : PageResp :=
  if offset == 0 then .ok (List.replicate batchLimit defaultBrand)
  else .httpErr 500 "Internal Server Error"

/-- The cache write handle left by `secondPageFailServer`: the first page
was streamed, then the deferred cleanup deleted the file. -/
def secondPageFailCache : CacheWrite :=
  ⟨[List.replicate batchLimit defaultBrand], false⟩

deriving instance DecidableEq for Except

---------------------------------------------------------------------------
-- Theorems

/-- C3: `IsValidPercent` is true for every measure in the Empty, Zero or
Trace state, and a Numeric measure (a finite non-zero amount `q`; the
remaining non-sentinel value `+Inf` has no finite value and is invalid)
is valid exactly when `0 ≤ q ≤ 100`. -/
theorem isValidPercent_states_and_range (m : Measure) :
    ((m.IsEmpty = true ∨ m.IsZero = true ∨ m.IsTrace = true) → m.IsValidPercent = true)
    ∧ (∀ q : ℚ, m.amount = GoFloat.finite q → q ≠ 0 →
        (m.IsValidPercent = true ↔ 0 ≤ q ∧ q ≤ 100)) := by
  obtain ⟨a⟩ := m
  constructor
  · intro h
    unfold Measure.IsValidPercent
    rcases h with h | h | h <;> simp [h]
  · intro q hq hq0
    cases a with
    | nan => exact absurd hq (by simp)
    | negInf => exact absurd hq (by simp)
    | posInf => exact absurd hq (by simp)
    | finite r =>
      have hrq : r = q := by injection hq
      subst hrq
      have h100 : mkRat 100 1 = (100 : ℚ) := by
        rw [Rat.mkRat_one]; norm_num
      have hz : (Measure.mk (GoFloat.finite r)).IsZero = false := by
        simp [Measure.IsZero]
      have ht : (Measure.mk (GoFloat.finite r)).IsTrace = false := by
        simp [Measure.IsTrace]
      have hemp : (Measure.mk (GoFloat.finite r)).IsEmpty = false := by
        simpa [Measure.IsEmpty, measureEmptySentinel, goEq] using hq0
      unfold Measure.IsValidPercent
      rw [hz, hemp, ht, h100]
      simp only [Bool.or_false, Bool.false_eq_true, if_false, goLe, goLt, goEq,
        Bool.or_eq_true, Bool.and_eq_true, decide_eq_true_eq, beq_iff_eq]
      constructor
      · rintro ⟨h1, h2⟩
        exact ⟨h1.elim le_of_lt (fun e => e ▸ le_refl _), le_of_lt_or_eq h2⟩
      · rintro ⟨h1, h2⟩
        exact ⟨lt_or_eq_of_le h1, lt_or_eq_of_le h2⟩

/-- C3 witness: a Numeric measure of 50 is a valid percentage iff
`0 ≤ 50 ≤ 100`. -/
theorem isValidPercent_states_and_range_witness :
    (Measure.mk (.finite (mkRat 50 1))).IsValidPercent = true ↔
      (0 : ℚ) ≤ mkRat 50 1 ∧ mkRat 50 1 ≤ 100 :=
  (isValidPercent_states_and_range ⟨.finite (mkRat 50 1)⟩).2 (mkRat 50 1) rfl (by decide)

/-- C5: evaluation of `IsEqual` at two Zero-state measures.  `IsEqual`
compares the raw amounts with Go float `==`; Zero is encoded as NaN and
`NaN == NaN` is false, so two Zero values are NOT equal, contradicting
the claim (and the sentinel's own comment, which warns that `IsNaN` must
be used because `NaN != NaN`). -/
theorem isEqual_zero_zero_false :
    (NewMeasure (.finite 0)).IsZero = true ∧
    (NewMeasure (.finite 0)).IsEqual (NewMeasure (.finite 0)) = false := by
  decide

/-- C7: every string classified by the empty-pattern or the error-pattern
test resolves to the Empty measure with no error reported — even when it
also matches the trace pattern or would parse as a number — because
`FromString` runs those two classifiers before the trace test and before
numeric parsing, so such tokens never reach `ParseFloat`. -/
theorem fromString_error_resolves_empty (s : String)
    (h : IsEmptyMeasurement s = true ∨ IsErrorMeasurementO s = some true) :
    Measure.FromString s = some (.ok ⟨measureEmptySentinel⟩) := by
  unfold Measure.FromString
  rcases h with h | h
  · simp [h]
  · by_cases he : IsEmptyMeasurement s
    · simp [he]
    · simp [he, h]

/-- C7 witness: `"<1.2,"` matches the trace pattern (leading `<`) but
also the error pattern (a comma), and resolves to Empty. -/
theorem fromString_error_resolves_empty_witness :
    Measure.FromString "<1.2," = some (.ok ⟨measureEmptySentinel⟩) :=
  fromString_error_resolves_empty "<1.2," (Or.inr (by decide))

/-- C8 counterexample: at the float input NaN the claim fails.  NaN
compares unequal to 0 and not less than 0, so by the claim the result
should be a Numeric measure carrying NaN; but `measureSentinelize` passes
NaN through unchanged and NaN is the Zero sentinel, so `NewMeasure(NaN)`
is in the Zero state. -/
theorem newMeasure_nan_lands_zero :
    goEq GoFloat.nan (.finite 0) = false ∧ goLt GoFloat.nan (.finite 0) = false ∧
    (NewMeasure GoFloat.nan).IsZero = true := by
  decide

/-- C8 amended: `NewMeasure v` is Zero when `v == 0`, Trace when `v < 0`,
also Zero when `v` is NaN (NaN is stored unchanged and NaN is the Zero
sentinel), and otherwise a Numeric measure carrying `v` unchanged. -/
theorem newMeasure_spec (v : GoFloat) :
    (goEq v (.finite 0) = true → (NewMeasure v).IsZero = true)
    ∧ (goLt v (.finite 0) = true → (NewMeasure v).IsTrace = true)
    ∧ (v = GoFloat.nan → (NewMeasure v).IsZero = true)
    ∧ (goEq v (.finite 0) = false → goLt v (.finite 0) = false → v ≠ GoFloat.nan →
        (NewMeasure v).amount = v ∧ (NewMeasure v).IsZero = false ∧
          (NewMeasure v).IsTrace = false ∧ (NewMeasure v).IsEmpty = false) := by
  refine ⟨?_, ?_, ?_, ?_⟩
  · intro h
    simp [NewMeasure, measureSentinelize, h, measureZeroSentinel, Measure.IsZero]
  · intro h
    have he : goEq v (.finite 0) = false := by
      cases v <;> simp_all [goEq, goLt]
      exact fun hz => absurd (hz ▸ h) (by simp)
    simp [NewMeasure, measureSentinelize, he, h, measureTraceSentinel, Measure.IsTrace]
  · intro h
    subst h
    simp [NewMeasure, measureSentinelize, goEq, goLt, Measure.IsZero,
      measureZeroSentinel]
  · intro he hl hn
    have hs : measureSentinelize v = v := by
      simp [measureSentinelize, he, hl, measureZeroSentinel]
    refine ⟨hs, ?_, ?_, ?_⟩
    · simp only [NewMeasure, hs, Measure.IsZero]
      cases v <;> simp_all
    · simp only [NewMeasure, hs, Measure.IsTrace]
      cases v <;> simp_all [goLt]
    · simp only [NewMeasure, hs, Measure.IsEmpty, measureEmptySentinel]
      exact he

/-- C8 witness: the Numeric branch at `v = 50`. -/
theorem newMeasure_spec_witness :
    (NewMeasure (.finite (mkRat 50 1))).amount = .finite (mkRat 50 1) ∧
    (NewMeasure (.finite (mkRat 50 1))).IsZero = false ∧
    (NewMeasure (.finite (mkRat 50 1))).IsTrace = false ∧
    (NewMeasure (.finite (mkRat 50 1))).IsEmpty = false :=
  (newMeasure_spec (.finite (mkRat 50 1))).2.2.2 (by decide) (by decide) (by decide)

/-- C10: `FromString` is total on every input string.  The error
classifier alone would panic on `""` (its `str[0]` access, `none` in the
model), but the empty-pattern check runs first and `""` matches it, so
every parse path returns a result. -/
theorem fromString_total :
    (∀ s : String, (Measure.FromString s).isSome = true)
    ∧ IsErrorMeasurementO "" = none := by
  constructor
  · intro s
    by_cases he : IsEmptyMeasurement s
    · simp [Measure.FromString, he]
    · have hsne : s ≠ "" := by
        intro h0
        rw [h0] at he
        simp [IsEmptyMeasurement] at he
      have hne : s.data ≠ [] := fun hdata => hsne (String.ext (by rw [hdata]))
      have herr : (IsErrorMeasurementO s).isSome = true := by
        unfold IsErrorMeasurementO
        cases hd : s.data with
        | nil => exact absurd hd hne
        | cons c t =>
          split
          · simp
          · split
            · simp
            · split
              · simp_all
              · split <;> simp
      obtain ⟨b, hb⟩ : ∃ b, IsErrorMeasurementO s = some b := by
        cases hmm : IsErrorMeasurementO s with
        | none => rw [hmm] at herr; simp at herr
        | some b => exact ⟨b, rfl⟩
      cases b with
      | true => simp [Measure.FromString, he, hb]
      | false =>
        by_cases ht : IsTraceMeasurement s
        · simp [Measure.FromString, he, hb, ht]
        · cases hp : parseGoFloat (strTrimEnd (strTrimStart (strTrimStart s ",") ">") "%") <;>
            simp [Measure.FromString, he, hb, ht, hp]
  · decide

/-- C9: `CheckCacheFile` reports a miss when the artifact does not exist;
reports staleness when `maxAge` is non-zero and the artifact's age
exceeds `maxAge` (`now` past `modTime + maxAge`); and otherwise — in
particular whenever `maxAge = 0`, whatever the age — returns the
artifact's full contents. -/
theorem checkCacheFile_spec (file : Option CacheFileInfo) (now maxAge : Int) :
    (file = none → CheckCacheFile file now maxAge = .error "cache file not found")
    ∧ (∀ fi, file = some fi → maxAge ≠ 0 → fi.modTime + maxAge < now →
        CheckCacheFile file now maxAge = .error "cache file is too old")
    ∧ (∀ fi, file = some fi → (maxAge = 0 ∨ now ≤ fi.modTime + maxAge) →
        CheckCacheFile file now maxAge = .ok fi.contents) := by
  refine ⟨?_, ?_, ?_⟩
  · intro h
    rw [h, CheckCacheFile]
  · intro fi hf hage hold
    rw [hf]
    unfold CheckCacheFile
    have h1 : (maxAge != 0) = true := by simpa using hage
    simp [h1, hold]
  · intro fi hf h
    rw [hf]
    unfold CheckCacheFile
    rcases h with h | h
    · simp [h]
    · have h2 : ¬ fi.modTime + maxAge < now := not_lt.mpr h
      simp [h2]

/-- C9 witness: the spec's cache-reuse scenario with `maxAge = 60`
minutes — an artifact written at time 0 read at time 90 is stale, read at
time 30 it is returned in full. -/
theorem checkCacheFile_spec_witness :
    CheckCacheFile (some ⟨0, "cached"⟩) 90 60 = .error "cache file is too old"
    ∧ CheckCacheFile (some ⟨0, "cached"⟩) 30 60 = .ok "cached" :=
  ⟨(checkCacheFile_spec (some ⟨0, "cached"⟩) 90 60).2.1 ⟨0, "cached"⟩ rfl
      (by decide) (by decide),
   (checkCacheFile_spec (some ⟨0, "cached"⟩) 30 60).2.2 ⟨0, "cached"⟩ rfl
      (Or.inr (by decide))⟩

/-- `IsBrandErroneous` in list form: an empty brand name, or some
measurement field failing `IsValidPercent`. -/
theorem isBrandErroneous_eq (b : Brand) :
    IsBrandErroneous b =
      (b.BrandName == "" || (brandMeasures b).any (fun m => !m.IsValidPercent)) := by
  unfold IsBrandErroneous
  cases h1 : b.BrandName == "" with
  | true => simp [h1]
  | false =>
    simp only [h1, Bool.false_eq_true, if_false, Bool.false_or, brandMeasures,
      List.any_cons, List.any_nil, Bool.or_false, Bool.or_assoc]
    split
    · next h => exact h.symm
    · next h =>
      simp only [Bool.not_eq_true] at h
      exact h.symm

/-- C4 counterexample: a brand with a non-empty name but an empty
registration/lookup key and all-Empty (valid) measures.  The claim calls
it invalid (empty identity field), yet `CleanBrands` retains it: the code
tests `BrandName`, not the registration key. -/
theorem cleanBrands_keeps_empty_registration :
    CleanBrands [namedKeylessBrand] = [namedKeylessBrand]
    ∧ namedKeylessBrand.RegistrationNumber = ""
    ∧ brandInvalidPerClaim namedKeylessBrand = true := by
  refine ⟨rfl, rfl, rfl⟩

/-- C4 amended: `CleanBrands` drops exactly those records whose
brand-name field is empty or that have at least one of the 51 measurement
fields failing `IsValidPercent` (the identity checked is the brand name,
not the registration/lookup key); it is a stable filter, so the retained
records keep their relative order (a sublist of the input) and are
returned unmodified. -/
theorem cleanBrands_spec (bs : List Brand) :
    CleanBrands bs =
      bs.filter
        (fun b => !(b.BrandName == "" || (brandMeasures b).any (fun m => !m.IsValidPercent)))
    ∧ List.Sublist (CleanBrands bs) bs := by
  refine ⟨?_, List.filter_sublist _⟩
  unfold CleanBrands
  congr 1
  funext b
  rw [isBrandErroneous_eq]

/-- C6: evaluation of the JSON round-trip at each state.  Zero and the
numeric constructions 0 (which lands in the Zero state), 50 and 100
round-trip to an equal measure; but Empty marshals to zero bytes and
Trace to the unquoted token `<0.01`, neither of which `UnmarshalJSON`
accepts (not `null`, not a JSON string, not a JSON number), so decoding
returns an error instead of an equal measure, contrary to the claim. -/
theorem marshalJSON_roundTrip_eval :
    Measure.MarshalJSON ⟨measureTraceSentinel⟩ = "<0.01"
    ∧ Measure.UnmarshalJSON "<0.01" = some (.error "failed to unmarshal measure")
    ∧ Measure.MarshalJSON ⟨measureEmptySentinel⟩ = ""
    ∧ Measure.UnmarshalJSON "" = some (.error "failed to unmarshal measure")
    ∧ Measure.UnmarshalJSON (Measure.MarshalJSON ⟨measureZeroSentinel⟩)
        = some (.ok ⟨measureZeroSentinel⟩)
    ∧ Measure.UnmarshalJSON (Measure.MarshalJSON (NewMeasure (.finite 0)))
        = some (.ok (NewMeasure (.finite 0)))
    ∧ Measure.UnmarshalJSON (Measure.MarshalJSON ⟨.finite (mkRat 50 1)⟩)
        = some (.ok ⟨.finite (mkRat 50 1)⟩)
    ∧ Measure.UnmarshalJSON (Measure.MarshalJSON ⟨.finite (mkRat 100 1)⟩)
        = some (.ok ⟨.finite (mkRat 100 1)⟩) := by
  decide

/-- Prepending to a non-empty list keeps its last element. -/
theorem getLast?_cons_of_some {α : Type} (x : α) (l : List α) (y : α)
    (h : l.getLast? = some y) : (x :: l).getLast? = some y := by
  cases l with
  | nil => simp at h
  | cons b t => rw [List.getLast?_cons_cons]; exact h

/-- Running the page loop against an honest server over `records`, from
any offset whose remaining suffix has length an exact multiple of the
batch limit: the loop performs `k + 1` further requests, appends the
whole suffix, streams one batch per request (the last one empty) and
keeps the cache file. -/
theorem fetchPages_honest (records : List Brand) :
    ∀ (k off : Nat) (acc : List Brand) (ws : List (List Brand)) (reqs : Nat),
    (records.drop off).length = batchLimit * k →
    ∃ bs, fetchPages (honestServer records) (k + 1) off acc ws reqs
        = some (.ok (acc ++ records.drop off), ⟨ws ++ bs, true⟩, reqs + (k + 1))
      ∧ bs.length = k + 1 ∧ bs.getLast? = some [] := by
  intro k
  induction k with
  | zero =>
    intro off acc ws reqs h
    have hnil : records.drop off = [] := List.length_eq_zero.mp (by simpa using h)
    refine ⟨[[]], ?_, by simp, by simp⟩
    simp [fetchPages, honestServer, hnil, batchLimit]
  | succ k ih =>
    intro off acc ws reqs h
    have hbatch : ((records.drop off).take batchLimit).length = batchLimit := by
      rw [List.length_take, h]
      have hle : batchLimit * 1 ≤ batchLimit * (k + 1) :=
        Nat.mul_le_mul_left _ (Nat.succ_le_succ (Nat.zero_le k))
      exact Nat.min_eq_left (by simpa using hle)
    have e1 : records.drop (off + batchLimit) = (records.drop off).drop batchLimit := by
      rw [List.drop_drop, Nat.add_comm]
    have hdrop : (records.drop (off + batchLimit)).length = batchLimit * k := by
      rw [e1, List.length_drop, h, Nat.mul_succ, Nat.add_sub_cancel]
    obtain ⟨bs, hrun, hbslen, hbslast⟩ :=
      ih (off + batchLimit) (acc ++ (records.drop off).take batchLimit)
        (ws ++ [(records.drop off).take batchLimit]) (reqs + 1) hdrop
    refine ⟨(records.drop off).take batchLimit :: bs, ?_, by simp [hbslen], ?_⟩
    · have hnotlt : ¬ ((records.drop off).take batchLimit).length < batchLimit := by
        rw [hbatch]; exact lt_irrefl _
      have hstep :
          fetchPages (honestServer records) (k + 1 + 1) off acc ws reqs
            = fetchPages (honestServer records) (k + 1) (off + batchLimit)
                (acc ++ (records.drop off).take batchLimit)
                (ws ++ [(records.drop off).take batchLimit]) (reqs + 1) := by
        simp only [fetchPages, honestServer]
        rw [if_neg hnotlt]
      rw [hstep, hrun]
      have e2 : (acc ++ (records.drop off).take batchLimit) ++ records.drop (off + batchLimit)
          = acc ++ records.drop off := by
        rw [e1, List.append_assoc, List.take_append_drop]
      have e3 : (ws ++ [(records.drop off).take batchLimit]) ++ bs
          = ws ++ (records.drop off).take batchLimit :: bs := by
        rw [List.append_assoc, List.singleton_append]
      have e4 : reqs + 1 + (k + 1) = reqs + (k + 1 + 1) := by omega
      rw [e2, e3, e4]
    · exact getLast?_cons_of_some _ bs [] hbslast

/-- For a server that never fails, the page loop (with `fuel` iterations
of budget) finishes within the budget exactly when one of the batches it
can reach — those at offsets `batchLimit * i` — is shorter than the
limit. -/
theorem fetchPages_allOk_isSome (batches : Nat → List Brand) :
    ∀ (fuel off : Nat) (acc : List Brand) (ws : List (List Brand)) (reqs : Nat),
    (fetchPages (fun o => .ok (batches o)) fuel off acc ws reqs).isSome = true
    ↔ ∃ i, i < fuel ∧ (batches (off + batchLimit * i)).length < batchLimit := by
  intro fuel
  induction fuel with
  | zero =>
    intro off acc ws reqs
    simp [fetchPages]
  | succ fuel ih =>
    intro off acc ws reqs
    by_cases hb : (batches off).length < batchLimit
    · simp only [fetchPages]
      rw [if_pos hb]
      simp only [Option.isSome_some, true_iff]
      exact ⟨0, Nat.succ_pos _, by simpa using hb⟩
    · simp only [fetchPages]
      rw [if_neg hb]
      rw [ih (off + batchLimit) (acc ++ batches off) (ws ++ [batches off]) (reqs + 1)]
      constructor
      · rintro ⟨i, hi, hsmall⟩
        refine ⟨i + 1, Nat.succ_lt_succ hi, ?_⟩
        have e : off + batchLimit * (i + 1) = off + batchLimit + batchLimit * i := by ring
        rw [e]; exact hsmall
      · rintro ⟨i, hi, hsmall⟩
        cases i with
        | zero =>
          exfalso
          apply hb
          simpa using hsmall
        | succ j =>
          refine ⟨j, Nat.lt_of_succ_lt_succ hi, ?_⟩
          have e : off + batchLimit + batchLimit * j = off + batchLimit * (j + 1) := by ring
          rw [e]; exact hsmall

/-- C1: over a remote collection of exactly `batchLimit * k` records
served honestly, the page loop issues exactly `k + 1` requests, streams
`k + 1` batches of which the last is empty, returns exactly the
`batchLimit * k` records, and keeps the cache file; and, for any
never-failing server, the loop terminates (some finite budget suffices)
iff some reachable batch is shorter than the limit — the only break. -/
theorem fetchBrands_pagination :
    (∀ (records : List Brand) (k : Nat), records.length = batchLimit * k →
      ∃ bs, fetchPages (honestServer records) (k + 1) 0 [] [] 0
          = some (.ok records, ⟨bs, true⟩, k + 1)
        ∧ bs.length = k + 1 ∧ bs.getLast? = some [])
    ∧ (∀ batches : Nat → List Brand,
        (∃ fuel, (fetchPages (fun o => .ok (batches o)) fuel 0 [] [] 0).isSome = true)
        ↔ ∃ i, (batches (batchLimit * i)).length < batchLimit) := by
  constructor
  · intro records k h
    obtain ⟨bs, hrun, h1, h2⟩ :=
      fetchPages_honest records k 0 [] [] 0 (by simpa using h)
    exact ⟨bs, by simpa using hrun, h1, h2⟩
  · intro batches
    constructor
    · rintro ⟨fuel, hs⟩
      obtain ⟨i, _, hsmall⟩ := (fetchPages_allOk_isSome batches fuel 0 [] [] 0).mp hs
      exact ⟨i, by simpa using hsmall⟩
    · rintro ⟨i, hsmall⟩
      exact ⟨i + 1, (fetchPages_allOk_isSome batches (i + 1) 0 [] [] 0).mpr
        ⟨i, Nat.lt_succ_self i, by simpa using hsmall⟩⟩

/-- C1 witness: a collection of exactly one full batch (`k = 1`,
5000 records) is fetched in two requests, the second returning the empty
batch. -/
theorem fetchBrands_pagination_witness :
    ∃ bs, fetchPages (honestServer (List.replicate batchLimit defaultBrand)) 2 0 [] [] 0
        = some (.ok (List.replicate batchLimit defaultBrand), ⟨bs, true⟩, 2)
      ∧ bs.length = 2 ∧ bs.getLast? = some [] :=
  fetchBrands_pagination.1 (List.replicate batchLimit defaultBrand) 1 (by simp)

/-- C2: whenever the page loop ends with an error — a transport failure,
a non-OK HTTP status or a page-decode failure, at any page after the
cache write handle was opened — the result carries no record set (the
`Except` is the bare error) and the deferred cleanup has deleted the
partially written cache artifact (`kept = false`), so no stale or
truncated artifact remains. -/
theorem fetchPages_failure_aborts (srv : Nat → PageResp) :
    ∀ (fuel off : Nat) (acc : List Brand) (ws : List (List Brand)) (reqs : Nat)
      (e : FetchErr) (cw : CacheWrite) (n : Nat),
    fetchPages srv fuel off acc ws reqs = some (.error e, cw, n) →
    cw.kept = false := by
  intro fuel
  induction fuel with
  | zero =>
    intro off acc ws reqs e cw n h
    simp [fetchPages] at h
  | succ fuel ih =>
    intro off acc ws reqs e cw n h
    rw [fetchPages] at h
    cases hsrv : srv off with
    | transportErr =>
      simp only [hsrv] at h
      obtain ⟨-, h2, -⟩ := by simpa using h
      rw [← h2]
    | httpErr st body =>
      simp only [hsrv] at h
      obtain ⟨-, h2, -⟩ := by simpa using h
      rw [← h2]
    | decodeErr =>
      simp only [hsrv] at h
      obtain ⟨-, h2, -⟩ := by simpa using h
      rw [← h2]
    | ok batch =>
      simp only [hsrv] at h
      by_cases hb : batch.length < batchLimit
      · rw [if_pos hb] at h
        simp at h
      · rw [if_neg hb] at h
        exact ih _ _ _ _ e cw n h

/-- C2 witness: the spec's crash-safety scenario — the first page is full
and already streamed to the cache file, the second request fails with
HTTP 500; the artifact is deleted. -/
theorem fetchPages_failure_aborts_witness : secondPageFailCache.kept = false :=
  fetchPages_failure_aborts secondPageFailServer 3 0 [] [] 0
    (.http 500 "Internal Server Error") secondPageFailCache 2 (by
      have h0 : secondPageFailServer 0 = .ok (List.replicate batchLimit defaultBrand) := rfl
      have h1 : secondPageFailServer (0 + batchLimit) = .httpErr 500 "Internal Server Error" := rfl
      show fetchPages secondPageFailServer (0 + 1 + 1 + 1) 0 [] [] 0
          = some (.error (.http 500 "Internal Server Error"), secondPageFailCache, 0 + 1 + 1)
      simp only [fetchPages, h0, h1, List.length_replicate, lt_self_iff_false, if_false,
        secondPageFailCache, List.nil_append])

end DankMcp
